import Mathlib

/-!
Verification of the process-bootstrap fragment of plex-media-player
(`src/main.cpp`) against its natural-language specification.

The C++ code is shallowly embedded:
* `QString` values are `List Char`; in-place mutation becomes explicit
  state passing.
* `elidePattern` / `processLog` (main.cpp lines 81-100) are embedded as
  pure functions on `List Char`; the `while (true)` loop of `elidePattern`
  is embedded with a fuel argument (`msg.length + 1` iterations suffice,
  since each completed iteration advances the scan position by at least
  the pattern length; the C++ loop diverges only for an empty pattern,
  which no caller uses).
* `appendCommandLineArguments` (lines 146-179) is embedded on
  `List String`; the out-of-bounds writes it performs when the argument
  list outgrows its `static char *newArgs[16]` buffer, or when an
  argument does not fit the 256-byte `malloc`/`strcpy` slots, are
  embedded as `none`.
* `main` (lines 182-311) is embedded as a function from an environment
  (command-line arguments after the program name, the results of the
  external calls `UniqueApplication::ensureUnique`,
  `UpdateManager::CheckForUpdates`, `app.exec`, and which external call,
  if any, throws `FatalException`) to a run result: the ordered trace of
  completed bootstrap actions, the process exit code, and the error text
  shown by the fallback error view, if any.
* the QsLog file-destination configuration built by `initLogger`
  (lines 109-113) is embedded as a record of the three policy values
  passed to `DestinationFactory::MakeFileDestination`.
-/

namespace Pmp

/-! ## Log redaction: `elidePattern` and `processLog` (main.cpp 81-100) -/

/-- The Boolean test that the pattern `pat` occurs in `msg` at position `i`
(the occurrence test underlying `QString::indexOf`). -/
def occursAtB (msg pat : List Char) (i : Nat) : Bool :=
  decide ((msg.drop i).take pat.length = pat)

/-- Embedding of `msg.indexOf(substring, start)` from main.cpp line 86:
the least position `i ≥ start` at which `pat` occurs in `msg`,
or `none` when there is no such occurrence (C++ result `-1`). -/
def idxFrom (msg pat : List Char) (start : Nat) : Option Nat :=
  (List.range (msg.length + 1)).find? fun i => decide (start ≤ i) && occursAtB msg pat i

/-- Embedding of the masking loop of main.cpp lines 90-91:
`for (int n = 0; n < chars; n++) msg[start + n] = QChar('x')`. -/
def maskFrom (msg : List Char) (start : Nat) : Nat → List Char
  | 0 => msg
  | n + 1 => (maskFrom msg start n).set (start + n) 'x'

/-- Embedding of the `while (true)` loop of `elidePattern`
(main.cpp lines 83-92), with explicit fuel: find the next occurrence of
`pat` at or after `start`; stop when there is none, or when fewer than
`chars` characters follow it; otherwise overwrite the `chars` characters
after the occurrence with `'x'` and continue scanning from the position
just after the pattern. -/
def elideLoop (pat : List Char) (chars : Nat) : Nat → Nat → List Char → List Char
  | 0, _, msg => msg
  | fuel + 1, start, msg =>
    match idxFrom msg pat start with
    | none => msg
    | some i =>
      if msg.length < i + pat.length + chars then msg
      else elideLoop pat chars fuel (i + pat.length) (maskFrom msg (i + pat.length) chars)

/-- Embedding of `elidePattern(msg, substring, chars)` (main.cpp 81-93).
`msg.length + 1` units of fuel are enough for any non-empty pattern. -/
def elidePattern (msg pat : List Char) (chars : Nat) : List Char :=
  elideLoop pat chars (msg.length + 1) 0 msg

/-- The first redacted token pattern of `processLog` (main.cpp line 98). -/
def tokenPlain : List Char := ("X-Plex-Token=").toList

/-- The second redacted token pattern of `processLog` (main.cpp line 99). -/
def tokenEscaped : List Char := ("X-Plex-Token%3D").toList

/-- Embedding of `processLog` (main.cpp 96-100): elide 20 characters after
each found occurrence of either token pattern. -/
def processLog (msg : List Char) : List Char :=
  elidePattern (elidePattern msg tokenPlain 20) tokenEscaped 20

/-! ## `appendCommandLineArguments` (main.cpp 146-179) -/

/-- The argument appended on OpenELEC builds (main.cpp line 162). -/
def gpuFlag : String := "--disable-gpu"

/-- First always-appended argument (main.cpp line 166). -/
def viewportFlag : String := "--enable-viewport"

/-- Second always-appended argument (main.cpp line 167). -/
def viewportMetaFlag : String := "--enable-viewport-meta"

/-- The fixed arguments that `appendCommandLineArguments` adds after the
original argument vector: `--disable-gpu` only under `#if KONVERGO_OPENELEC`,
then `--enable-viewport` and `--enable-viewport-meta`. -/
def fixedAppendedArgs (openelec : Bool) : List String :=
  (if openelec then [gpuFlag] else []) ++ [viewportFlag, viewportMetaFlag]

/-- Embedding of `appendCommandLineArguments` (main.cpp 146-179): the
original arguments are copied in order into a new vector and the fixed
arguments are appended.  The copy goes through `static char *newArgs[16]`
and per-slot `malloc(256)`/`strcpy`, so a result list longer than 16
entries, or any argument of 256 or more UTF-8 bytes (255 bytes plus the
terminator is the largest that fits), writes out of bounds; those runs
are embedded as `none`. -/
def appendCommandLineArguments (openelec : Bool) (args : List String) : Option (List String) :=
  let argList := args ++ fixedAppendedArgs openelec
  if decide (argList.length ≤ 16) && argList.all (fun s => decide (s.utf8ByteSize < 256)) then
    some argList
  else
    none

/-! ## Logger configuration (main.cpp 103-120) and rotation policy -/

/-- The policy values a QsLog file destination is configured with. -/
structure FileDestinationConfig where
  rotationOnOpen : Bool
  maxSizeBytes : Nat
  maxOldLogCount : Nat
deriving DecidableEq

/-- The configuration `initLogger` passes to
`DestinationFactory::MakeFileDestination` (main.cpp lines 109-113):
`EnableLogRotationOnOpen`, `MaxSizeBytes(1024 * 1024)`, `MaxOldLogCount(9)`. -/
def initLoggerDest : FileDestinationConfig :=
  ⟨true, 1024 * 1024, 9⟩

/-- Rotation state of a file log destination: the byte size of the active
file and the sizes of the retained rotated files, newest first. -/
structure RotationState where
  activeSize : Nat
  rotatedSizes : List Nat
deriving DecidableEq

/-- Modelled from the spec: the rotation behavior of the QsLog file
destination made by `DestinationFactory::MakeFileDestination` is not part
of src/ (only its configuration call is).  Per spec section 4.2: "when the
active log exceeds the size bound, it is renamed into a rotation slot and
a fresh file opened; files beyond the retained count are deleted, oldest
first."  `writeRecord cfg st n` appends an `n`-byte record and rotates if
the active file then exceeds `cfg.maxSizeBytes`. -/
def writeRecord (cfg : FileDestinationConfig) (st : RotationState) (n : Nat) : RotationState :=
  let sz := st.activeSize + n
  if cfg.maxSizeBytes < sz then
    ⟨0, (sz :: st.rotatedSizes).take cfg.maxOldLogCount⟩
  else
    ⟨sz, st.rotatedSizes⟩

/-! ## The `main` control flow (main.cpp 182-311) -/

/-- The bootstrap actions of `main` that the spec's lifecycle claims talk
about, in source terms:

* `printLicenses`: printing `:/misc/licenses.txt` (lines 192-195);
* `argAppend`: the `appendCommandLineArguments` call (line 206);
* `qtPreinit`: `preinitQt()` (line 224);
* `appConstruct`: constructing the `QGuiApplication` (line 225);
* `crashDumper`: `setupCrashDumper()` (line 229);
* `ensureUnique`: `UniqueApplication::ensureUnique()` returning (line 232);
* `initLogger`: `initLogger()` (line 241);
* `logStartup`: the three startup `QLOG_INFO` lines (lines 242-244);
* `updateCheck`: `UpdateManager::CheckForUpdates()` returning (line 247);
* `componentInit`: `ComponentManager::Get().initialize()` (line 264);
* `webEngineInit`: `QtWebEngine::initialize()` (line 270);
* `helperConnect`: `HelperLauncher::Get().connectToHelper()` (line 279);
* `setLogLevel`: `updateLogLevel()` (line 282);
* `loadUI`: `KonvergoEngine::Get().loadUI()` (line 285);
* `execLoop`: `app.exec()` returning (line 288);
* `unloadUI`: `KonvergoEngine::Get().unload()` (line 290);
* `logFatal`, `errorAppConstruct`, `showErrorView`, `errorExecLoop`:
  the catch handler (lines 295-310). -/
inductive Ev where
  | printLicenses
  | argAppend
  | qtPreinit
  | appConstruct
  | crashDumper
  | ensureUnique
  | initLogger
  | logStartup
  | updateCheck
  | componentInit
  | webEngineInit
  | helperConnect
  | setLogLevel
  | loadUI
  | execLoop
  | unloadUI
  | logFatal
  | errorAppConstruct
  | showErrorView
  | errorExecLoop
deriving DecidableEq

/-- The `--licenses` command-line flag (main.cpp line 190). -/
def licensesFlag : String := "--licenses"

/-- The `--hidden` command-line flag (main.cpp line 198). -/
def hiddenFlag : String := "--hidden"

/-- Environment of one run of `main`: everything outside main.cpp that
the control flow depends on.  `args` is the argument vector after the
program name (the C++ loop starts at `argv[1]`).  `fatalAt e` is
`some m` when the external call embodied by action `e` throws
`FatalException` with message `m` instead of returning. -/
structure Env where
  args : List String
  uniqueOk : Bool
  updateFound : Bool
  execRet : Int
  fatalAt : Ev → Option String

/-- Embedding of the argument scan of main.cpp lines 188-203: walk the
arguments in order; at the first `--licenses` the process prints the
license text and returns 0 (embedded as `none`); otherwise the scan
completes and yields whether `--hidden` was seen (`startHidden`). -/
def scanArgs : List String → Bool → Option Bool
  | [], hidden => some hidden
  | a :: rest, hidden =>
    if a = licensesFlag then none
    else scanArgs rest (hidden || decide (a = hiddenFlag))

/-- Result of the `try` block of `main`: either a normal return with the
trace of completed actions and the returned code, or a `FatalException`
escaping to the catch handler with the trace completed so far and the
exception message. -/
inductive Outcome where
  | ret (trace : List Ev) (code : Int)
  | thrown (trace : List Ev) (msg : String)
deriving DecidableEq

/-- Actions completed before `setupCrashDumper()` is called:
`appendCommandLineArguments`, `preinitQt()`, and the `QGuiApplication`
constructor (main.cpp lines 205-226). -/
def trPre : List Ev := [Ev.argAppend, Ev.qtPreinit, Ev.appConstruct]

/-- Trace after `setupCrashDumper()` (line 229). -/
def trCrash : List Ev := trPre ++ [Ev.crashDumper]

/-- Trace after `ensureUnique()` returns (line 232). -/
def trUnique : List Ev := trCrash ++ [Ev.ensureUnique]

/-- Trace after `initLogger()` and the startup log lines (lines 241-244). -/
def trLog : List Ev := trUnique ++ [Ev.initLogger, Ev.logStartup]

/-- Trace after `CheckForUpdates()` returns (line 247). -/
def trUpd : List Ev := trLog ++ [Ev.updateCheck]

/-- Trace after `ComponentManager::Get().initialize()` (line 264). -/
def trComp : List Ev := trUpd ++ [Ev.componentInit]

/-- Trace after `QtWebEngine::initialize()` (line 270). -/
def trWeb : List Ev := trComp ++ [Ev.webEngineInit]

/-- Trace after `connectToHelper()` (line 279). -/
def trHelper : List Ev := trWeb ++ [Ev.helperConnect]

/-- Trace after `updateLogLevel()` (line 282). -/
def trLevel : List Ev := trHelper ++ [Ev.setLogLevel]

/-- Trace of a complete run started with `--hidden`: `loadUI()` is
skipped (line 284), the event loop runs, then `unload()` (lines 288-290). -/
def trHiddenRun : List Ev := trLevel ++ [Ev.execLoop, Ev.unloadUI]

/-- Trace of a complete run without `--hidden`: `loadUI()`, the event
loop, then `unload()` (lines 284-290). -/
def trFullRun : List Ev := trLevel ++ [Ev.loadUI, Ev.execLoop, Ev.unloadUI]

/-- Embedding of the `try` block of `main` (main.cpp lines 186-293),
sequencing the bootstrap actions exactly as the source does and stopping
at the three early `return`s (`--licenses`, non-leader instance, update
applied) or at the first external call that throws `FatalException`. -/
def mainTry (env : Env) : Outcome :=
  match scanArgs env.args false with
  | none => Outcome.ret [Ev.printLicenses] 0
  | some hidden =>
    match env.fatalAt Ev.crashDumper with
    | some m => Outcome.thrown trPre m
    | none =>
      match env.fatalAt Ev.ensureUnique with
      | some m => Outcome.thrown trCrash m
      | none =>
        match env.uniqueOk with
        | false => Outcome.ret trUnique 0
        | true =>
          match env.fatalAt Ev.initLogger with
          | some m => Outcome.thrown trUnique m
          | none =>
            match env.fatalAt Ev.updateCheck with
            | some m => Outcome.thrown trLog m
            | none =>
              match env.updateFound with
              | true => Outcome.ret trUpd 0
              | false =>
                match env.fatalAt Ev.componentInit with
                | some m => Outcome.thrown trUpd m
                | none =>
                  match env.fatalAt Ev.webEngineInit with
                  | some m => Outcome.thrown trComp m
                  | none =>
                    match env.fatalAt Ev.helperConnect with
                    | some m => Outcome.thrown trWeb m
                    | none =>
                      match env.fatalAt Ev.setLogLevel with
                      | some m => Outcome.thrown trHelper m
                      | none =>
                        match hidden with
                        | true => Outcome.ret trHiddenRun env.execRet
                        | false =>
                          match env.fatalAt Ev.loadUI with
                          | some m => Outcome.thrown trLevel m
                          | none => Outcome.ret trFullRun env.execRet

/-- Fixed suffix appended to the fault message by the catch handler
(main.cpp line 301). -/
def supportText : String := "Please visit Plex support forums for support."

/-- The error text the fallback error view displays for a fault message
`m` (main.cpp line 301): `e.message() + "<br>" + tr("Please visit ...")`. -/
def fatalErrorText (m : String) : String := m ++ "<br>" ++ supportText

/-- Observable result of one run of `main`: the ordered trace of
completed actions, the process exit code, and the error text shown by the
fallback error view, when one was shown. -/
structure RunResult where
  trace : List Ev
  code : Int
  errorShown : Option String
deriving DecidableEq

/-- Embedding of `main` (main.cpp 182-311): run the `try` block; a normal
return propagates its code, while an escaping `FatalException` is handled
by the catch block (lines 295-310), which logs at fatal level, constructs
a fresh `QGuiApplication`, shows the minimal QML error view with the
fault text, runs its event loop, and returns 1. -/
def mainRun (env : Env) : RunResult :=
  match mainTry env with
  | Outcome.ret tr code => ⟨tr, code, none⟩
  | Outcome.thrown tr m =>
    ⟨tr ++ [Ev.logFatal, Ev.errorAppConstruct, Ev.showErrorView, Ev.errorExecLoop],
     1, some (fatalErrorText m)⟩

/-! ## Phase-order predicate used by claim C2 -/

/-- Consecutive mandatory lifecycle-phase pairs claimed by the spec's
control-flow sentence: crash reporter, single-instance check, logging,
update gate, component initialization, event loop, teardown.  UI hand-off
is handled separately because a `--hidden` run legitimately skips it. -/
def phasePairs : List (Ev × Ev) :=
  [(Ev.crashDumper, Ev.ensureUnique),
   (Ev.ensureUnique, Ev.initLogger),
   (Ev.initLogger, Ev.updateCheck),
   (Ev.updateCheck, Ev.componentInit),
   (Ev.componentInit, Ev.execLoop),
   (Ev.execLoop, Ev.unloadUI)]

/-- A trace respects the claimed phase order when, for every mandatory
phase pair, the later phase occurs only if the earlier one already
occurred strictly before it, and UI hand-off — when it occurs at all —
falls strictly between component initialization and the event loop. -/
def PhaseOrdered (tr : List Ev) : Prop :=
  (∀ p ∈ phasePairs, p.2 ∈ tr → p.1 ∈ tr ∧ tr.indexOf p.1 < tr.indexOf p.2) ∧
  (Ev.loadUI ∈ tr →
    Ev.componentInit ∈ tr ∧ Ev.execLoop ∈ tr ∧
    tr.indexOf Ev.componentInit < tr.indexOf Ev.loadUI ∧
    tr.indexOf Ev.loadUI < tr.indexOf Ev.execLoop)

instance : DecidablePred PhaseOrdered := fun tr =>
  decidable_of_iff
    ((∀ p ∈ phasePairs, p.2 ∈ tr → p.1 ∈ tr ∧ tr.indexOf p.1 < tr.indexOf p.2) ∧
      (Ev.loadUI ∈ tr →
        Ev.componentInit ∈ tr ∧ Ev.execLoop ∈ tr ∧
        tr.indexOf Ev.componentInit < tr.indexOf Ev.loadUI ∧
        tr.indexOf Ev.loadUI < tr.indexOf Ev.execLoop))
    Iff.rfl

/-! ## Concrete inputs used by counterexamples and witnesses -/

/-- A run with no arguments and no external failures. -/
def envDefault : Env := ⟨[], true, false, 0, fun _ => none⟩

/-- A run that finds and applies an update. -/
def envUpdate : Env := ⟨[], true, true, 0, fun _ => none⟩

/-- A run that loses the single-instance race. -/
def envNotUnique : Env := ⟨[], false, false, 0, fun _ => none⟩

/-- A run invoked with `--licenses`. -/
def envLicenses : Env := ⟨[licensesFlag], true, false, 0, fun _ => none⟩

/-- A run invoked with `--hidden`. -/
def envHidden : Env := ⟨[hiddenFlag], true, false, 0, fun _ => none⟩

/-- A run invoked with `--hidden` followed by `--licenses`. -/
def envHiddenLicenses : Env := ⟨[hiddenFlag, licensesFlag], true, false, 0, fun _ => none⟩

/-- The fault message used by the fault-run input below. -/
def faultMsg : String := "component borked"

/-- A run in which `ComponentManager::Get().initialize()` throws
`FatalException`. -/
def envFault : Env :=
  ⟨[], true, false, 0, fun e => if e = Ev.componentInit then some faultMsg else none⟩

/-- A log message whose token has exactly 20 trailing characters. -/
def wMsgC1 : List Char := ("X-Plex-Token=ABCDEFGHIJKLMNOPQRST").toList

/-- A log message whose token has fewer than 20 trailing characters. -/
def cMsgC1 : List Char := ("X-Plex-Token=abc").toList

/-- A log message containing only the escaped token pattern, with exactly
20 trailing characters. -/
def wMsgC1b : List Char := ("X-Plex-Token%3Dabcdefghijklmnopqrst").toList

/-- Pattern with self-overlapping occurrences, for claim C10. -/
def patC10 : List Char := ("aa").toList

/-- Message in which `patC10` occurs at positions 0, 1 and 2. -/
def cMsgC10 : List Char := ("aaaab").toList

/-- Message in which `patC10` first occurs at position 1. -/
def wMsgC10 : List Char := ("ZaaQRS").toList

/-- Sample argument strings for the C6 witness. -/
def wArgsC6 : List String := ["plexmediaplayer", "--fullscreen=no"]

/-- Fifteen original arguments: two more than fit the 16-slot buffer
together with the two appended arguments. -/
def bigArgsC6 : List String := List.replicate 15 "a"

/-- Message in which `patC10` occurs only at position 1, with fewer
trailing characters than are to be masked. -/
def wShortC10 : List Char := ("Haa").toList

/-- A rotation state whose active file is exactly at the size bound. -/
def stC9 : RotationState := ⟨1024 * 1024, []⟩

/-! ## Helper lemmas about masking -/

theorem maskFrom_length (msg : List Char) (s n : Nat) :
    (maskFrom msg s n).length = msg.length := by
  induction n with
  | zero => rfl
  | succ n ih => simp [maskFrom, ih]

theorem maskFrom_getElem?_outside (msg : List Char) (s j : Nat) :
    ∀ n, j < s ∨ s + n ≤ j → (maskFrom msg s n)[j]? = msg[j]? := by
  intro n
  induction n with
  | zero => intro _; rfl
  | succ n ih =>
    intro h
    simp only [maskFrom]
    rw [List.getElem?_set_ne (by omega : s + n ≠ j)]
    exact ih (by omega)

theorem maskFrom_getElem?_mask (msg : List Char) (s j : Nat) :
    ∀ n, s ≤ j → j < s + n → j < msg.length → (maskFrom msg s n)[j]? = some 'x' := by
  intro n
  induction n with
  | zero => intro _ h2 _; omega
  | succ n ih =>
    intro h1 h2 h3
    by_cases hj : j = s + n
    · subst hj
      simp only [maskFrom]
      exact List.getElem?_set_eq_of_lt _ (by rw [maskFrom_length]; exact h3)
    · simp only [maskFrom]
      rw [List.getElem?_set_ne (by omega : s + n ≠ j)]
      exact ih h1 (by omega) h3

theorem maskFrom_getElem?_cases (msg : List Char) (s n j : Nat) :
    (maskFrom msg s n)[j]? = msg[j]? ∨ (maskFrom msg s n)[j]? = some 'x' := by
  by_cases h1 : j < s ∨ s + n ≤ j
  · exact Or.inl (maskFrom_getElem?_outside msg s j n h1)
  · by_cases h2 : j < msg.length
    · exact Or.inr (maskFrom_getElem?_mask msg s j n (by omega) (by omega) h2)
    · left
      rw [List.getElem?_eq_none (by rw [maskFrom_length]; omega),
        List.getElem?_eq_none (by omega : msg.length ≤ j)]

/-! ## Helper lemmas about the elision loop -/

theorem idxFrom_some_le (msg pat : List Char) (s i : Nat)
    (h : idxFrom msg pat s = some i) : s ≤ i := by
  unfold idxFrom at h
  have hp := List.find?_some h
  simp only [Bool.and_eq_true, decide_eq_true_eq] at hp
  exact hp.1

theorem elideLoop_succ_none (pat : List Char) (c fuel start : Nat) (msg : List Char)
    (hf : idxFrom msg pat start = none) :
    elideLoop pat c (fuel + 1) start msg = msg := by
  simp only [elideLoop, hf]

theorem elideLoop_succ_some (pat : List Char) (c fuel start : Nat) (msg : List Char) (i : Nat)
    (hf : idxFrom msg pat start = some i) :
    elideLoop pat c (fuel + 1) start msg =
      if msg.length < i + pat.length + c then msg
      else elideLoop pat c fuel (i + pat.length) (maskFrom msg (i + pat.length) c) := by
  simp only [elideLoop, hf]

theorem elideLoop_getElem?_cases (pat : List Char) (c : Nat) :
    ∀ (fuel start : Nat) (msg : List Char) (j : Nat),
      (elideLoop pat c fuel start msg)[j]? = msg[j]? ∨
      (elideLoop pat c fuel start msg)[j]? = some 'x' := by
  intro fuel
  induction fuel with
  | zero => intro start msg j; exact Or.inl rfl
  | succ fuel ih =>
    intro start msg j
    cases hf : idxFrom msg pat start with
    | none => rw [elideLoop_succ_none pat c fuel start msg hf]; exact Or.inl rfl
    | some i =>
      rw [elideLoop_succ_some pat c fuel start msg i hf]
      by_cases hlen : msg.length < i + pat.length + c
      · rw [if_pos hlen]; exact Or.inl rfl
      · rw [if_neg hlen]
        rcases ih (i + pat.length) (maskFrom msg (i + pat.length) c) j with h | h
        · rcases maskFrom_getElem?_cases msg (i + pat.length) c j with h2 | h2
          · exact Or.inl (h.trans h2)
          · exact Or.inr (h.trans h2)
        · exact Or.inr h

theorem elideLoop_getElem?_below (pat : List Char) (c : Nat) :
    ∀ (fuel start : Nat) (msg : List Char) (j : Nat), j < start →
      (elideLoop pat c fuel start msg)[j]? = msg[j]? := by
  intro fuel
  induction fuel with
  | zero => intro start msg j _; rfl
  | succ fuel ih =>
    intro start msg j hj
    cases hf : idxFrom msg pat start with
    | none => rw [elideLoop_succ_none pat c fuel start msg hf]
    | some i =>
      have hsi := idxFrom_some_le msg pat start i hf
      rw [elideLoop_succ_some pat c fuel start msg i hf]
      by_cases hlen : msg.length < i + pat.length + c
      · rw [if_pos hlen]
      · rw [if_neg hlen]
        rw [ih (i + pat.length) _ j (by omega)]
        exact maskFrom_getElem?_outside msg (i + pat.length) j c (Or.inl (by omega))

/-! ## Behavior of `elidePattern` on the first found occurrence -/

theorem elidePattern_first_mask (msg pat : List Char) (c i : Nat)
    (hf : idxFrom msg pat 0 = some i) (ht : i + pat.length + c ≤ msg.length) :
    ∀ j : Nat, i + pat.length ≤ j → j < i + pat.length + c →
      (elidePattern msg pat c)[j]? = some 'x' := by
  intro j h1 h2
  unfold elidePattern
  rw [elideLoop_succ_some pat c msg.length 0 msg i hf, if_neg (by omega)]
  rcases elideLoop_getElem?_cases pat c msg.length (i + pat.length)
      (maskFrom msg (i + pat.length) c) j with h | h
  · rw [h]
    exact maskFrom_getElem?_mask msg (i + pat.length) j c h1 h2 (by omega)
  · exact h

theorem elidePattern_first_below (msg pat : List Char) (c i : Nat)
    (hf : idxFrom msg pat 0 = some i) (ht : i + pat.length + c ≤ msg.length) :
    ∀ j : Nat, j < i + pat.length → (elidePattern msg pat c)[j]? = msg[j]? := by
  intro j hj
  unfold elidePattern
  rw [elideLoop_succ_some pat c msg.length 0 msg i hf, if_neg (by omega)]
  rw [elideLoop_getElem?_below pat c msg.length (i + pat.length) _ j hj]
  exact maskFrom_getElem?_outside msg (i + pat.length) j c (Or.inl hj)

theorem elidePattern_none (msg pat : List Char) (c : Nat)
    (hf : idxFrom msg pat 0 = none) : elidePattern msg pat c = msg := by
  unfold elidePattern
  exact elideLoop_succ_none pat c msg.length 0 msg hf

theorem elidePattern_stop_short (msg pat : List Char) (c i : Nat)
    (hf : idxFrom msg pat 0 = some i) (hshort : msg.length < i + pat.length + c) :
    elidePattern msg pat c = msg := by
  unfold elidePattern
  rw [elideLoop_succ_some pat c msg.length 0 msg i hf, if_pos hshort]

theorem elidePattern_getElem?_cases (msg pat : List Char) (c j : Nat) :
    (elidePattern msg pat c)[j]? = msg[j]? ∨ (elidePattern msg pat c)[j]? = some 'x' :=
  elideLoop_getElem?_cases pat c (msg.length + 1) 0 msg j

/-! ## Claims C1 and C10: redaction -/

/-- Claim C1, as stated, is
false: `processLog` does not mask the characters following every
occurrence of a configured token pattern.  On the message
`X-Plex-Token=abc` — which contains the pattern `X-Plex-Token=` at
position 0 — `processLog` returns the message completely unchanged
(because fewer than 20 characters follow the pattern), so the persisted
record still contains the unredacted token value `abc`. -/
theorem c1_counterexample :
    occursAtB cMsgC1 tokenPlain 0 = true ∧ processLog cMsgC1 = cMsgC1 := by
  decide

/-- Claim C1 (amended): for every log message, `processLog` changes
characters only by overwriting them with the masking character `'x'`
(so redaction never fabricates token text); when the first occurrence of
`X-Plex-Token=` in the message has at least 20 following characters, the
20 characters immediately following it are masked; when the first
occurrence of `X-Plex-Token%3D` in the output of the first pass — in
particular, in the message itself when the message contains no
`X-Plex-Token=` — has at least 20 following characters, the 20
characters immediately following it are masked as well; and a message in
which each pattern's first found occurrence is absent or has fewer than
20 following characters is persisted entirely unchanged, its token
occurrences left unredacted. -/
theorem c1_amended_thm (msg : List Char) :
    (∀ j : Nat, (processLog msg)[j]? = msg[j]? ∨ (processLog msg)[j]? = some 'x') ∧
    (∀ i : Nat, idxFrom msg tokenPlain 0 = some i →
      i + tokenPlain.length + 20 ≤ msg.length →
      ∀ j : Nat, i + tokenPlain.length ≤ j → j < i + tokenPlain.length + 20 →
        (processLog msg)[j]? = some 'x') ∧
    (∀ i : Nat, idxFrom (elidePattern msg tokenPlain 20) tokenEscaped 0 = some i →
      i + tokenEscaped.length + 20 ≤ (elidePattern msg tokenPlain 20).length →
      ∀ j : Nat, i + tokenEscaped.length ≤ j → j < i + tokenEscaped.length + 20 →
        (processLog msg)[j]? = some 'x') ∧
    (idxFrom msg tokenPlain 0 = none →
      ∀ i : Nat, idxFrom msg tokenEscaped 0 = some i →
        i + tokenEscaped.length + 20 ≤ msg.length →
        ∀ j : Nat, i + tokenEscaped.length ≤ j → j < i + tokenEscaped.length + 20 →
          (processLog msg)[j]? = some 'x') ∧
    ((idxFrom msg tokenPlain 0 = none ∨
        ∃ i : Nat, idxFrom msg tokenPlain 0 = some i ∧
          msg.length < i + tokenPlain.length + 20) →
      (idxFrom msg tokenEscaped 0 = none ∨
        ∃ i : Nat, idxFrom msg tokenEscaped 0 = some i ∧
          msg.length < i + tokenEscaped.length + 20) →
      processLog msg = msg) := by
  refine ⟨?_, ?_, ?_, ?_, ?_⟩
  · intro j
    unfold processLog
    rcases elidePattern_getElem?_cases (elidePattern msg tokenPlain 20)
        tokenEscaped 20 j with h | h
    · rcases elidePattern_getElem?_cases msg tokenPlain 20 j with h2 | h2
      · exact Or.inl (h.trans h2)
      · exact Or.inr (h.trans h2)
    · exact Or.inr h
  · intro i hf ht j h1 h2
    have hx := elidePattern_first_mask msg tokenPlain 20 i hf ht j h1 h2
    unfold processLog
    rcases elidePattern_getElem?_cases (elidePattern msg tokenPlain 20)
        tokenEscaped 20 j with h | h
    · exact h.trans hx
    · exact h
  · intro i hf ht j h1 h2
    unfold processLog
    exact elidePattern_first_mask (elidePattern msg tokenPlain 20) tokenEscaped 20
      i hf ht j h1 h2
  · intro hnone i hf ht j h1 h2
    have h0 : elidePattern msg tokenPlain 20 = msg :=
      elidePattern_none msg tokenPlain 20 hnone
    unfold processLog
    rw [h0]
    exact elidePattern_first_mask msg tokenEscaped 20 i hf ht j h1 h2
  · intro hp hq
    have h0 : elidePattern msg tokenPlain 20 = msg := by
      rcases hp with hp | ⟨i, hi, hshort⟩
      · exact elidePattern_none msg tokenPlain 20 hp
      · exact elidePattern_stop_short msg tokenPlain 20 i hi hshort
    unfold processLog
    rw [h0]
    rcases hq with hq | ⟨i, hi, hshort⟩
    · exact elidePattern_none msg tokenEscaped 20 hq
    · exact elidePattern_stop_short msg tokenEscaped 20 i hi hshort

/-- Witness for the amended claim C1: on a message whose plain token has
exactly 20 trailing characters the first and last masked positions are
`'x'`; on an escaped-only message the 20 characters after
`X-Plex-Token%3D` are masked; and a message whose only occurrence is
short-tailed is unchanged. -/
theorem c1_amended_witness :
    (processLog wMsgC1)[13]? = some 'x' ∧
    (processLog wMsgC1)[32]? = some 'x' ∧
    (processLog wMsgC1b)[15]? = some 'x' ∧
    (processLog wMsgC1b)[34]? = some 'x' ∧
    processLog cMsgC1 = cMsgC1 :=
  ⟨(c1_amended_thm wMsgC1).2.1 0 (by decide) (by decide) 13 (by decide) (by decide),
   (c1_amended_thm wMsgC1).2.1 0 (by decide) (by decide) 32 (by decide) (by decide),
   (c1_amended_thm wMsgC1b).2.2.2.1 (by decide) 0 (by decide) (by decide)
     15 (by decide) (by decide),
   (c1_amended_thm wMsgC1b).2.2.2.1 (by decide) 0 (by decide) (by decide)
     34 (by decide) (by decide),
   (c1_amended_thm cMsgC1).2.2.2.2 (Or.inr ⟨0, by decide, by decide⟩)
     (Or.inl (by decide))⟩

/-- Claim C10, as stated, is false:
`elidePattern` does not mask the `n` characters after *each* occurrence of
the pattern that is followed by at least `n` characters.  In `aaaab` the
pattern `aa` occurs at position 2 with one character after it, yet
`elidePattern "aaaab" "aa" 1` returns `aaxab`: position 4 keeps `'b'`,
because masking the first occurrence destroyed the later overlapping
occurrences before the scan reached them. -/
theorem c10_counterexample :
    occursAtB cMsgC10 patC10 2 = true ∧
    2 + patC10.length + 1 ≤ cMsgC10.length ∧
    (elidePattern cMsgC10 patC10 1)[2 + patC10.length]? = some 'b' ∧
    (elidePattern cMsgC10 patC10 1)[2 + patC10.length]? ≠ some 'x' := by
  decide

/-- Claim C10 (amended): `elidePattern` performs a left-to-right scan of
the message.  For the *first* occurrence it finds: when at least `n`
characters follow it, exactly those `n` characters are overwritten with
`'x'` while every character before the end of the pattern is kept, and
the scan continues just after the pattern inside the partially masked
message (so a later occurrence overlapping a masked region may be
destroyed and its trailing characters left unmasked); when fewer than `n`
characters follow the first occurrence, the message is returned entirely
unmodified. -/
theorem c10_amended_thm (msg pat : List Char) (n i : Nat)
    (hf : idxFrom msg pat 0 = some i) :
    (i + pat.length + n ≤ msg.length →
      (∀ j : Nat, i + pat.length ≤ j → j < i + pat.length + n →
        (elidePattern msg pat n)[j]? = some 'x') ∧
      (∀ j : Nat, j < i + pat.length → (elidePattern msg pat n)[j]? = msg[j]?)) ∧
    (msg.length < i + pat.length + n → elidePattern msg pat n = msg) := by
  constructor
  · intro ht
    exact ⟨elidePattern_first_mask msg pat n i hf ht,
      elidePattern_first_below msg pat n i hf ht⟩
  · intro hshort
    exact elidePattern_stop_short msg pat n i hf hshort

/-- Witness for the amended claim C10: in `ZaaQRS` the first occurrence
of `aa` is at position 1; eliding 2 characters masks position 3, keeps
position 0, and on `Haa` (occurrence with too short a tail) the message
is unchanged. -/
theorem c10_amended_witness :
    (elidePattern wMsgC10 patC10 2)[3]? = some 'x' ∧
    (elidePattern wMsgC10 patC10 2)[0]? = wMsgC10[0]? ∧
    elidePattern wShortC10 patC10 2 = wShortC10 :=
  ⟨((c10_amended_thm wMsgC10 patC10 2 1 (by decide)).1 (by decide)).1 3 (by decide) (by decide),
   ((c10_amended_thm wMsgC10 patC10 2 1 (by decide)).1 (by decide)).2 0 (by decide),
   (c10_amended_thm wShortC10 patC10 2 1 (by decide)).2 (by decide)⟩

/-! ## Helper lemmas about the argument scan -/

theorem scanArgs_none_of_mem (args : List String) :
    ∀ hidden, licensesFlag ∈ args → scanArgs args hidden = none := by
  induction args with
  | nil => intro hidden h; simp at h
  | cons a rest ih =>
    intro hidden h
    by_cases ha : a = licensesFlag
    · simp [scanArgs, ha]
    · simp only [scanArgs, if_neg ha]
      rcases List.mem_cons.mp h with h1 | h1
      · exact absurd h1.symm ha
      · exact ih _ h1

theorem scanArgs_acc_true (args : List String) :
    scanArgs args true = none ∨ scanArgs args true = some true := by
  induction args with
  | nil => exact Or.inr rfl
  | cons a rest ih =>
    by_cases ha : a = licensesFlag
    · left; simp [scanArgs, ha]
    · simp only [scanArgs, if_neg ha, Bool.true_or]
      exact ih

theorem scanArgs_hidden_mem (args : List String) :
    ∀ hidden, hiddenFlag ∈ args →
      scanArgs args hidden = none ∨ scanArgs args hidden = some true := by
  induction args with
  | nil => intro hidden h; simp at h
  | cons a rest ih =>
    intro hidden h
    by_cases ha : a = licensesFlag
    · left; simp [scanArgs, ha]
    · simp only [scanArgs, if_neg ha]
      rcases List.mem_cons.mp h with h1 | h1
      · subst h1
        have hacc : (hidden || decide (hiddenFlag = hiddenFlag)) = true := by simp
        rw [hacc]
        exact scanArgs_acc_true rest
      · exact ih _ h1

theorem scanArgs_no_licenses_acc_true (args : List String) :
    licensesFlag ∉ args → scanArgs args true = some true := by
  induction args with
  | nil => intro _; rfl
  | cons a rest ih =>
    intro hlic
    have ha : a ≠ licensesFlag := fun e => hlic (by rw [← e]; exact List.mem_cons_self a rest)
    simp only [scanArgs, if_neg ha, Bool.true_or]
    exact ih fun hm => hlic (List.mem_cons_of_mem _ hm)

theorem scanArgs_no_licenses_hidden (args : List String) :
    ∀ hidden, licensesFlag ∉ args → hiddenFlag ∈ args →
      scanArgs args hidden = some true := by
  induction args with
  | nil => intro hidden _ h; simp at h
  | cons a rest ih =>
    intro hidden hlic h
    have ha : a ≠ licensesFlag := fun e => hlic (by rw [← e]; exact List.mem_cons_self a rest)
    simp only [scanArgs, if_neg ha]
    rcases List.mem_cons.mp h with h1 | h1
    · subst h1
      have hacc : (hidden || decide (hiddenFlag = hiddenFlag)) = true := by simp
      rw [hacc]
      exact scanArgs_no_licenses_acc_true rest fun hm => hlic (List.mem_cons_of_mem _ hm)
    · exact ih _ (fun hm => hlic (List.mem_cons_of_mem _ hm)) h1

/-! ## Exhaustive case analysis of the embedded `main` -/

/-- Every run of the embedded `try` block ends in exactly one of the
following ways, in source terms: the `--licenses` early return; a
`FatalException` thrown by one of the external calls (with the trace of
actions completed before it); the non-leader early return; the
update-applied early return; a complete hidden run; a `FatalException`
from `loadUI()`; or a complete visible run. -/
theorem mainTry_cases (env : Env) :
    (mainTry env = Outcome.ret [Ev.printLicenses] 0 ∧ scanArgs env.args false = none)
    ∨ ((∃ hdn, scanArgs env.args false = some hdn) ∧
        ∃ m, env.fatalAt Ev.crashDumper = some m ∧ mainTry env = Outcome.thrown trPre m)
    ∨ ((∃ hdn, scanArgs env.args false = some hdn) ∧
        ∃ m, env.fatalAt Ev.ensureUnique = some m ∧ mainTry env = Outcome.thrown trCrash m)
    ∨ ((∃ hdn, scanArgs env.args false = some hdn) ∧ env.uniqueOk = false ∧
        mainTry env = Outcome.ret trUnique 0)
    ∨ ((∃ hdn, scanArgs env.args false = some hdn) ∧ env.uniqueOk = true ∧
        ∃ m, env.fatalAt Ev.initLogger = some m ∧ mainTry env = Outcome.thrown trUnique m)
    ∨ ((∃ hdn, scanArgs env.args false = some hdn) ∧ env.uniqueOk = true ∧
        ∃ m, env.fatalAt Ev.updateCheck = some m ∧ mainTry env = Outcome.thrown trLog m)
    ∨ ((∃ hdn, scanArgs env.args false = some hdn) ∧ env.uniqueOk = true ∧
        env.updateFound = true ∧ mainTry env = Outcome.ret trUpd 0)
    ∨ ((∃ hdn, scanArgs env.args false = some hdn) ∧ env.uniqueOk = true ∧
        env.updateFound = false ∧
        ∃ m, env.fatalAt Ev.componentInit = some m ∧ mainTry env = Outcome.thrown trUpd m)
    ∨ ((∃ hdn, scanArgs env.args false = some hdn) ∧ env.uniqueOk = true ∧
        env.updateFound = false ∧
        ∃ m, env.fatalAt Ev.webEngineInit = some m ∧ mainTry env = Outcome.thrown trComp m)
    ∨ ((∃ hdn, scanArgs env.args false = some hdn) ∧ env.uniqueOk = true ∧
        env.updateFound = false ∧
        ∃ m, env.fatalAt Ev.helperConnect = some m ∧ mainTry env = Outcome.thrown trWeb m)
    ∨ ((∃ hdn, scanArgs env.args false = some hdn) ∧ env.uniqueOk = true ∧
        env.updateFound = false ∧
        ∃ m, env.fatalAt Ev.setLogLevel = some m ∧ mainTry env = Outcome.thrown trHelper m)
    ∨ (scanArgs env.args false = some true ∧ env.uniqueOk = true ∧
        env.updateFound = false ∧ mainTry env = Outcome.ret trHiddenRun env.execRet)
    ∨ (scanArgs env.args false = some false ∧ env.uniqueOk = true ∧
        env.updateFound = false ∧
        ∃ m, env.fatalAt Ev.loadUI = some m ∧ mainTry env = Outcome.thrown trLevel m)
    ∨ (scanArgs env.args false = some false ∧ env.uniqueOk = true ∧
        env.updateFound = false ∧ mainTry env = Outcome.ret trFullRun env.execRet) := by
  unfold mainTry
  cases hs : scanArgs env.args false with
  | none => exact Or.inl ⟨rfl, rfl⟩
  | some hdn =>
    cases h1 : env.fatalAt Ev.crashDumper with
    | some m =>
      iterate 1 right
      left
      exact ⟨⟨hdn, rfl⟩, m, rfl, rfl⟩
    | none =>
    cases h2 : env.fatalAt Ev.ensureUnique with
    | some m =>
      iterate 2 right
      left
      exact ⟨⟨hdn, rfl⟩, m, rfl, rfl⟩
    | none =>
    cases hu : env.uniqueOk with
    | false =>
      iterate 3 right
      left
      exact ⟨⟨hdn, rfl⟩, rfl, rfl⟩
    | true =>
    cases h3 : env.fatalAt Ev.initLogger with
    | some m =>
      iterate 4 right
      left
      exact ⟨⟨hdn, rfl⟩, rfl, m, rfl, rfl⟩
    | none =>
    cases h4 : env.fatalAt Ev.updateCheck with
    | some m =>
      iterate 5 right
      left
      exact ⟨⟨hdn, rfl⟩, rfl, m, rfl, rfl⟩
    | none =>
    cases hupq : env.updateFound with
    | true =>
      iterate 6 right
      left
      exact ⟨⟨hdn, rfl⟩, rfl, rfl, rfl⟩
    | false =>
    cases h5 : env.fatalAt Ev.componentInit with
    | some m =>
      iterate 7 right
      left
      exact ⟨⟨hdn, rfl⟩, rfl, rfl, m, rfl, rfl⟩
    | none =>
    cases h6 : env.fatalAt Ev.webEngineInit with
    | some m =>
      iterate 8 right
      left
      exact ⟨⟨hdn, rfl⟩, rfl, rfl, m, rfl, rfl⟩
    | none =>
    cases h7 : env.fatalAt Ev.helperConnect with
    | some m =>
      iterate 9 right
      left
      exact ⟨⟨hdn, rfl⟩, rfl, rfl, m, rfl, rfl⟩
    | none =>
    cases h8 : env.fatalAt Ev.setLogLevel with
    | some m =>
      iterate 10 right
      left
      exact ⟨⟨hdn, rfl⟩, rfl, rfl, m, rfl, rfl⟩
    | none =>
    cases hdn with
    | true =>
      iterate 11 right
      left
      exact ⟨rfl, rfl, rfl, rfl⟩
    | false =>
    cases h9 : env.fatalAt Ev.loadUI with
    | some m =>
      iterate 12 right
      left
      exact ⟨rfl, rfl, rfl, m, rfl, rfl⟩
    | none =>
      iterate 13 right
      exact ⟨rfl, rfl, rfl, rfl⟩

/-! ## Claim C2: startup phase order -/

/-- Claim C2, as stated, is false in
one respect: crash-reporter installation is not the very first action of
`main`.  In a plain run, the trace begins with the
`appendCommandLineArguments` call, and the `QGuiApplication` construction
(a faultable subsystem) strictly precedes `setupCrashDumper()`. -/
theorem c2_counterexample :
    (mainRun envDefault).trace.head? = some Ev.argAppend ∧
    (mainRun envDefault).trace.head? ≠ some Ev.crashDumper ∧
    Ev.appConstruct ∈ (mainRun envDefault).trace ∧
    (mainRun envDefault).trace.indexOf Ev.appConstruct <
      (mainRun envDefault).trace.indexOf Ev.crashDumper := by
  decide

/-- Claim C2 (amended): in every run, the modeled startup phases occur in
the claimed strict relative order — crash-reporter installation, then
single-instance coordination, then logging configuration, then the
update gate, then `ComponentManager` initialization, then UI hand-off,
then, on return from the event loop, teardown — but crash-reporter
installation is not the very first action: command-line scanning,
argument appending, Qt preinitialization and the `QGuiApplication`
construction all precede it whenever it runs. -/
theorem c2_amended_thm (env : Env) :
    PhaseOrdered (mainRun env).trace ∧
    (Ev.crashDumper ∈ (mainRun env).trace →
      Ev.appConstruct ∈ (mainRun env).trace ∧
      (mainRun env).trace.indexOf Ev.appConstruct <
        (mainRun env).trace.indexOf Ev.crashDumper) := by
  rcases mainTry_cases env with
    ⟨he, hs⟩ | ⟨⟨hdn, hs⟩, m, hf, he⟩ | ⟨⟨hdn, hs⟩, m, hf, he⟩ | ⟨⟨hdn, hs⟩, hu, he⟩ |
    ⟨⟨hdn, hs⟩, hu, m, hf, he⟩ | ⟨⟨hdn, hs⟩, hu, m, hf, he⟩ | ⟨⟨hdn, hs⟩, hu, hupq, he⟩ |
    ⟨⟨hdn, hs⟩, hu, hupq, m, hf, he⟩ | ⟨⟨hdn, hs⟩, hu, hupq, m, hf, he⟩ |
    ⟨⟨hdn, hs⟩, hu, hupq, m, hf, he⟩ | ⟨⟨hdn, hs⟩, hu, hupq, m, hf, he⟩ |
    ⟨hs, hu, hupq, he⟩ | ⟨hs, hu, hupq, m, hf, he⟩ | ⟨hs, hu, hupq, he⟩ <;>
  simp only [mainRun, he] <;> decide

/-- Witness for the amended claim C2, discharging its hypothesis on a
concrete plain run: `QGuiApplication` construction occurs and precedes
`setupCrashDumper()`. -/
theorem c2_amended_witness :
    Ev.appConstruct ∈ (mainRun envDefault).trace ∧
    (mainRun envDefault).trace.indexOf Ev.appConstruct <
      (mainRun envDefault).trace.indexOf Ev.crashDumper :=
  (c2_amended_thm envDefault).2 (by decide)

/-! ## Claim C3: update gate -/

/-- Claim C3: in every run in which
`UpdateManager::CheckForUpdates()` returns `true`, `main` returns exit
code 0 and neither `ComponentManager::Get().initialize()` nor
`KonvergoEngine::Get().loadUI()` is ever invoked. -/
theorem c3_thm (env : Env) (hupd : env.updateFound = true)
    (hreach : Ev.updateCheck ∈ (mainRun env).trace) :
    (mainRun env).code = 0 ∧
    Ev.componentInit ∉ (mainRun env).trace ∧
    Ev.loadUI ∉ (mainRun env).trace := by
  rcases mainTry_cases env with
    ⟨he, hs⟩ | ⟨⟨hdn, hs⟩, m, hf, he⟩ | ⟨⟨hdn, hs⟩, m, hf, he⟩ | ⟨⟨hdn, hs⟩, hu, he⟩ |
    ⟨⟨hdn, hs⟩, hu, m, hf, he⟩ | ⟨⟨hdn, hs⟩, hu, m, hf, he⟩ | ⟨⟨hdn, hs⟩, hu, hupq, he⟩ |
    ⟨⟨hdn, hs⟩, hu, hupq, m, hf, he⟩ | ⟨⟨hdn, hs⟩, hu, hupq, m, hf, he⟩ |
    ⟨⟨hdn, hs⟩, hu, hupq, m, hf, he⟩ | ⟨⟨hdn, hs⟩, hu, hupq, m, hf, he⟩ |
    ⟨hs, hu, hupq, he⟩ | ⟨hs, hu, hupq, m, hf, he⟩ | ⟨hs, hu, hupq, he⟩ <;>
  simp only [mainRun, he] at hreach ⊢ <;>
  first
    | decide
    | exact absurd hreach (by decide)
    | simp_all

/-- Witness for claim C3 at a concrete update-applied run. -/
theorem c3_witness :
    (mainRun envUpdate).code = 0 ∧
    Ev.componentInit ∉ (mainRun envUpdate).trace ∧
    Ev.loadUI ∉ (mainRun envUpdate).trace :=
  c3_thm envUpdate rfl (by decide)

/-! ## Claim C4: single-instance early exit -/

/-- Claim C4: in every run in which
`UniqueApplication::ensureUnique()` returns `false`, `main` returns
`EXIT_SUCCESS` (0) and never reaches logging configuration, the update
check, component initialization, or UI loading. -/
theorem c4_thm (env : Env) (huniq : env.uniqueOk = false)
    (hreach : Ev.ensureUnique ∈ (mainRun env).trace) :
    (mainRun env).code = 0 ∧
    Ev.initLogger ∉ (mainRun env).trace ∧
    Ev.updateCheck ∉ (mainRun env).trace ∧
    Ev.componentInit ∉ (mainRun env).trace ∧
    Ev.loadUI ∉ (mainRun env).trace := by
  rcases mainTry_cases env with
    ⟨he, hs⟩ | ⟨⟨hdn, hs⟩, m, hf, he⟩ | ⟨⟨hdn, hs⟩, m, hf, he⟩ | ⟨⟨hdn, hs⟩, hu, he⟩ |
    ⟨⟨hdn, hs⟩, hu, m, hf, he⟩ | ⟨⟨hdn, hs⟩, hu, m, hf, he⟩ | ⟨⟨hdn, hs⟩, hu, hupq, he⟩ |
    ⟨⟨hdn, hs⟩, hu, hupq, m, hf, he⟩ | ⟨⟨hdn, hs⟩, hu, hupq, m, hf, he⟩ |
    ⟨⟨hdn, hs⟩, hu, hupq, m, hf, he⟩ | ⟨⟨hdn, hs⟩, hu, hupq, m, hf, he⟩ |
    ⟨hs, hu, hupq, he⟩ | ⟨hs, hu, hupq, m, hf, he⟩ | ⟨hs, hu, hupq, he⟩ <;>
  simp only [mainRun, he] at hreach ⊢ <;>
  first
    | decide
    | exact absurd hreach (by decide)
    | simp_all

/-- Witness for claim C4 at a concrete non-leader run. -/
theorem c4_witness :
    (mainRun envNotUnique).code = 0 ∧
    Ev.initLogger ∉ (mainRun envNotUnique).trace ∧
    Ev.updateCheck ∉ (mainRun envNotUnique).trace ∧
    Ev.componentInit ∉ (mainRun envNotUnique).trace ∧
    Ev.loadUI ∉ (mainRun envNotUnique).trace :=
  c4_thm envNotUnique rfl (by decide)

/-! ## Claim C5: fatal-exception boundary -/

/-- Claim C5: every `FatalException`
escaping the `try` block of `main` is caught at the outermost boundary:
it is logged at fatal level, the minimal fallback error view is shown
with the fault message (followed by the support-forums suffix), and the
process exits with the non-zero code 1. -/
theorem c5_thm (env : Env) (tr : List Ev) (m : String)
    (h : mainTry env = Outcome.thrown tr m) :
    (mainRun env).code = 1 ∧ (mainRun env).code ≠ 0 ∧
    Ev.logFatal ∈ (mainRun env).trace ∧
    Ev.showErrorView ∈ (mainRun env).trace ∧
    (mainRun env).errorShown = some (fatalErrorText m) := by
  have hrun : mainRun env =
      ⟨tr ++ [Ev.logFatal, Ev.errorAppConstruct, Ev.showErrorView, Ev.errorExecLoop], 1,
        some (fatalErrorText m)⟩ := by
    unfold mainRun
    rw [h]
  rw [hrun]
  exact ⟨rfl, by show (1 : Int) ≠ 0; decide, by simp, by simp, rfl⟩

/-- Witness for claim C5 at a concrete run whose component
initialization throws. -/
theorem c5_witness :
    (mainRun envFault).code = 1 ∧
    (mainRun envFault).errorShown = some (fatalErrorText faultMsg) := by
  have h := c5_thm envFault trUpd faultMsg (by decide)
  exact ⟨h.1, h.2.2.2.2⟩

/-! ## Claim C7: the licenses flag -/

/-- Claim C7: whenever `--licenses`
occurs among the arguments after the program name, `main` prints the
license text and returns 0 before any subsystem starts: no crash
reporter, single-instance check, logging, update check, or component
initialization occurs. -/
theorem c7_thm (env : Env) (hlic : licensesFlag ∈ env.args) :
    (mainRun env).code = 0 ∧
    (mainRun env).trace = [Ev.printLicenses] ∧
    Ev.crashDumper ∉ (mainRun env).trace ∧
    Ev.ensureUnique ∉ (mainRun env).trace ∧
    Ev.initLogger ∉ (mainRun env).trace ∧
    Ev.updateCheck ∉ (mainRun env).trace ∧
    Ev.componentInit ∉ (mainRun env).trace := by
  have hnone := scanArgs_none_of_mem env.args false hlic
  rcases mainTry_cases env with
    ⟨he, hs⟩ | ⟨⟨hdn, hs⟩, m, hf, he⟩ | ⟨⟨hdn, hs⟩, m, hf, he⟩ | ⟨⟨hdn, hs⟩, hu, he⟩ |
    ⟨⟨hdn, hs⟩, hu, m, hf, he⟩ | ⟨⟨hdn, hs⟩, hu, m, hf, he⟩ | ⟨⟨hdn, hs⟩, hu, hupq, he⟩ |
    ⟨⟨hdn, hs⟩, hu, hupq, m, hf, he⟩ | ⟨⟨hdn, hs⟩, hu, hupq, m, hf, he⟩ |
    ⟨⟨hdn, hs⟩, hu, hupq, m, hf, he⟩ | ⟨⟨hdn, hs⟩, hu, hupq, m, hf, he⟩ |
    ⟨hs, hu, hupq, he⟩ | ⟨hs, hu, hupq, m, hf, he⟩ | ⟨hs, hu, hupq, he⟩ <;>
  first
    | (simp only [mainRun, he]; decide)
    | simp_all

/-- Witness for claim C7 at a concrete `--licenses` invocation. -/
theorem c7_witness :
    (mainRun envLicenses).code = 0 ∧
    (mainRun envLicenses).trace = [Ev.printLicenses] ∧
    Ev.crashDumper ∉ (mainRun envLicenses).trace ∧
    Ev.ensureUnique ∉ (mainRun envLicenses).trace ∧
    Ev.initLogger ∉ (mainRun envLicenses).trace ∧
    Ev.updateCheck ∉ (mainRun envLicenses).trace ∧
    Ev.componentInit ∉ (mainRun envLicenses).trace :=
  c7_thm envLicenses (by decide)

/-! ## Claim C8: the hidden flag -/

/-- Claim C8, as stated, is false:
an argument vector containing `--hidden` does not always proceed through
the full startup sequence, because other exits can intervene.  With
arguments `--hidden --licenses`, the licenses early-return wins: neither
`setupCrashDumper()` nor `ComponentManager::Get().initialize()` ever
runs (and `loadUI()` does not either). -/
theorem c8_counterexample :
    hiddenFlag ∈ envHiddenLicenses.args ∧
    Ev.crashDumper ∉ (mainRun envHiddenLicenses).trace ∧
    Ev.componentInit ∉ (mainRun envHiddenLicenses).trace ∧
    Ev.loadUI ∉ (mainRun envHiddenLicenses).trace := by
  decide

/-- Claim C8 (amended): whenever `--hidden` occurs among the arguments,
`KonvergoEngine::Get().loadUI()` is never invoked; and if moreover
`--licenses` is absent, the instance is the leader, no update is applied
and no external call throws, then startup proceeds through the full
sequence — crash reporter, single-instance check, logging, update gate,
component initialization — with the UI still never loaded. -/
theorem c8_amended_thm (env : Env) (hmem : hiddenFlag ∈ env.args) :
    Ev.loadUI ∉ (mainRun env).trace ∧
    (licensesFlag ∉ env.args → env.uniqueOk = true → env.updateFound = false →
      (∀ e, env.fatalAt e = none) →
      (mainRun env).trace = trHiddenRun ∧
      Ev.crashDumper ∈ (mainRun env).trace ∧
      Ev.ensureUnique ∈ (mainRun env).trace ∧
      Ev.initLogger ∈ (mainRun env).trace ∧
      Ev.updateCheck ∈ (mainRun env).trace ∧
      Ev.componentInit ∈ (mainRun env).trace ∧
      Ev.loadUI ∉ (mainRun env).trace) := by
  have hsc := scanArgs_hidden_mem env.args false hmem
  constructor
  · rcases mainTry_cases env with
      ⟨he, hs⟩ | ⟨⟨hdn, hs⟩, m, hf, he⟩ | ⟨⟨hdn, hs⟩, m, hf, he⟩ | ⟨⟨hdn, hs⟩, hu, he⟩ |
      ⟨⟨hdn, hs⟩, hu, m, hf, he⟩ | ⟨⟨hdn, hs⟩, hu, m, hf, he⟩ | ⟨⟨hdn, hs⟩, hu, hupq, he⟩ |
      ⟨⟨hdn, hs⟩, hu, hupq, m, hf, he⟩ | ⟨⟨hdn, hs⟩, hu, hupq, m, hf, he⟩ |
      ⟨⟨hdn, hs⟩, hu, hupq, m, hf, he⟩ | ⟨⟨hdn, hs⟩, hu, hupq, m, hf, he⟩ |
      ⟨hs, hu, hupq, he⟩ | ⟨hs, hu, hupq, m, hf, he⟩ | ⟨hs, hu, hupq, he⟩ <;>
    simp only [mainRun, he] <;>
    first
      | decide
      | (rcases hsc with hsc | hsc <;> simp_all)
  · intro hlic huniq hupd hfat
    have hscan := scanArgs_no_licenses_hidden env.args false hlic hmem
    rcases mainTry_cases env with
      ⟨he, hs⟩ | ⟨⟨hdn, hs⟩, m, hf, he⟩ | ⟨⟨hdn, hs⟩, m, hf, he⟩ | ⟨⟨hdn, hs⟩, hu, he⟩ |
      ⟨⟨hdn, hs⟩, hu, m, hf, he⟩ | ⟨⟨hdn, hs⟩, hu, m, hf, he⟩ | ⟨⟨hdn, hs⟩, hu, hupq, he⟩ |
      ⟨⟨hdn, hs⟩, hu, hupq, m, hf, he⟩ | ⟨⟨hdn, hs⟩, hu, hupq, m, hf, he⟩ |
      ⟨⟨hdn, hs⟩, hu, hupq, m, hf, he⟩ | ⟨⟨hdn, hs⟩, hu, hupq, m, hf, he⟩ |
      ⟨hs, hu, hupq, he⟩ | ⟨hs, hu, hupq, m, hf, he⟩ | ⟨hs, hu, hupq, he⟩ <;>
    first
      | (simp only [mainRun, he]; decide)
      | simp_all [hfat]

/-- Witness for the amended claim C8 at a concrete `--hidden` run. -/
theorem c8_amended_witness :
    Ev.loadUI ∉ (mainRun envHidden).trace ∧
    Ev.componentInit ∈ (mainRun envHidden).trace := by
  have h := c8_amended_thm envHidden (by decide)
  exact ⟨h.1, (h.2 (by decide) rfl rfl fun e => rfl).2.2.2.2.2.1⟩

/-! ## Claim C6: argument pass-through -/

/-- Claim C6, as stated for every
argument vector, is false: with 15 original arguments the rebuilt vector
has 17 entries, which overflows the `static char *newArgs[16]` buffer
(an out-of-bounds write, embedded as `none`), so no well-defined argument
vector with the claimed count results. -/
theorem c6_counterexample :
    bigArgsC6.length = 15 ∧ appendCommandLineArguments false bigArgsC6 = none := by
  decide

/-- Claim C6 (amended): for every argument vector whose rebuilt list fits
the fixed 16-slot buffer, with every argument below 256 UTF-8 bytes,
`appendCommandLineArguments` copies all original arguments in order and
appends exactly the fixed arguments, so the resulting count is the
original count plus the number of appended arguments and no original
argument is removed, reordered, or altered. -/
theorem c6_amended_thm (openelec : Bool) (args : List String)
    (hlen : (args ++ fixedAppendedArgs openelec).length ≤ 16)
    (hsz : ∀ s ∈ args, s.utf8ByteSize < 256) :
    appendCommandLineArguments openelec args = some (args ++ fixedAppendedArgs openelec) ∧
    ∀ res, appendCommandLineArguments openelec args = some res →
      res.length = args.length + (fixedAppendedArgs openelec).length ∧
      res.take args.length = args ∧
      res.drop args.length = fixedAppendedArgs openelec := by
  have hall : (args ++ fixedAppendedArgs openelec).all
      (fun s => decide (s.utf8ByteSize < 256)) = true := by
    rw [List.all_eq_true]
    intro s hs
    rcases List.mem_append.mp hs with h | h
    · exact decide_eq_true (hsz s h)
    · cases openelec <;> simp only [fixedAppendedArgs] at h <;> fin_cases h <;> decide
  have hcond : (decide ((args ++ fixedAppendedArgs openelec).length ≤ 16) &&
      (args ++ fixedAppendedArgs openelec).all
        (fun s => decide (s.utf8ByteSize < 256))) = true := by
    rw [Bool.and_eq_true]
    exact ⟨decide_eq_true hlen, hall⟩
  have hval : appendCommandLineArguments openelec args =
      some (args ++ fixedAppendedArgs openelec) := by
    simp only [appendCommandLineArguments]
    rw [if_pos hcond]
  refine ⟨hval, ?_⟩
  intro res hres
  rw [hval] at hres
  obtain rfl : args ++ fixedAppendedArgs openelec = res := Option.some.inj hres
  exact ⟨List.length_append _ _, List.take_left _ _, List.drop_left _ _⟩

/-- Witness for the amended claim C6 at a concrete two-argument vector. -/
theorem c6_amended_witness :
    appendCommandLineArguments false wArgsC6 = some (wArgsC6 ++ fixedAppendedArgs false) :=
  (c6_amended_thm false wArgsC6 (by decide) (by decide)).1

/-! ## Claim C9: logger rotation configuration -/

/-- Claim C9: `initLogger` configures
the file destination with a maximum active-file size of exactly
`1024 * 1024` bytes, a maximum retained old-log count of exactly 9, and
rotation enabled on open; under the spec-modelled rotation behavior,
writing past the size bound rotates the active file into the newest
slot, trimming to the 9 most recent rotated files, and the retained
count never exceeds 9. -/
theorem c9_thm (st : RotationState) (n : Nat) (hinv : st.rotatedSizes.length ≤ 9) :
    initLoggerDest.maxSizeBytes = 1024 * 1024 ∧
    initLoggerDest.maxOldLogCount = 9 ∧
    initLoggerDest.rotationOnOpen = true ∧
    (initLoggerDest.maxSizeBytes < st.activeSize + n →
      (writeRecord initLoggerDest st n).activeSize = 0 ∧
      (writeRecord initLoggerDest st n).rotatedSizes =
        ((st.activeSize + n) :: st.rotatedSizes).take 9) ∧
    (writeRecord initLoggerDest st n).rotatedSizes.length ≤ 9 := by
  refine ⟨rfl, rfl, rfl, ?_, ?_⟩
  · intro hover
    simp only [writeRecord]
    rw [if_pos hover]
    exact ⟨rfl, rfl⟩
  · simp only [writeRecord]
    split
    · show (((st.activeSize + n) :: st.rotatedSizes).take 9).length ≤ 9
      rw [List.length_take]
      exact Nat.min_le_left _ _
    · exact hinv

/-- Witness for claim C9: one write of a single byte past a full active
file resets the active file and keeps at most 9 rotated files. -/
theorem c9_witness :
    (writeRecord initLoggerDest stC9 1).activeSize = 0 ∧
    (writeRecord initLoggerDest stC9 1).rotatedSizes.length ≤ 9 := by
  have h := c9_thm stC9 1 (by decide)
  exact ⟨(h.2.2.2.1 (by decide)).1, h.2.2.2.2⟩

end Pmp

